import Mathlib

/-
Shallow embedding of `src/maya/assets.py` (asset classification layer over the
host application scene-graph API) together with proofs about its behaviour.

The host API (`maya.cmds`) is modelled by the record `Cmds`: each field is one
of the scene-graph queries the module performs.  Node identifiers are the
path-like strings the host hands out (segments separated by a pipe, namespaces
separated by a colon).  Python exceptions (IndexError on `ancestors[-1]`,
NameError on the undefined `geo`) are modelled with `Option` / `Except`.
-/

/-- ASCII lower-casing of one character, the semantics the case-insensitive
regular expressions of the module rely on (all node names are ASCII). -/
def lcChar (c : Char) : Char :=
  if 'A' ≤ c ∧ c ≤ 'Z' then Char.ofNat (c.toNat + 32) else c

/-- Does the second list start with the first (exact characters)?  Embeds an
anchored `re.match` of a literal pattern. -/
def leadsWith : List Char → List Char → Bool
  | [], _ => true
  | _ :: _, [] => false
  | p :: ps, c :: cs => (p == c) && leadsWith ps cs

/-- Case-insensitive variant: the pattern is given in lower case and each
subject character is lower-cased first.  Embeds `re.match("(?i)...", s)` for a
literal pattern. -/
def leadsWithCI : List Char → List Char → Bool
  | [], _ => true
  | _ :: _, [] => false
  | p :: ps, c :: cs => (p == lcChar c) && leadsWithCI ps cs

/-- Does the list end with the pattern?  Embeds a `$`-anchored literal
regular-expression suffix. -/
def closesWith (pat l : List Char) : Bool :=
  leadsWith pat.reverse l.reverse

/-- Does the pattern occur anywhere in the list?  Embeds `re.findall` /
an unanchored occurrence test for a literal pattern. -/
def hasInfixL (pat : List Char) : List Char → Bool
  | [] => leadsWith pat []
  | c :: cs => leadsWith pat (c :: cs) || hasInfixL pat cs

/-- The part of the list after the LAST occurrence of `sep`, or `none` when
`sep` does not occur.  `(afterLast sep l).getD l` embeds Python
`s.rsplit(sep)[-1]`. -/
def afterLast (sep : Char) : List Char → Option (List Char)
  | [] => none
  | c :: cs =>
    match afterLast sep cs with
    | some r => some r
    | none => if c = sep then some cs else none

/-- Embeds `simple_node_name` (assets.py line 9): strip everything up to the
last pipe, then everything up to the last colon:
`node.rsplit("|")[-1].rsplit(":")[-1]`. -/
def simple_node_name (node : String) : String :=
  let afterPipe := (afterLast '|' node.data).getD node.data
  String.mk ((afterLast ':' afterPipe).getD afterPipe)

/-- The part of the list before the LAST occurrence of a pipe, or `none` when
no pipe occurs.  Auxiliary for Python `s.rsplit("|", 1)[0]`. -/
def dlsAux : List Char → Option (List Char)
  | [] => none
  | c :: cs =>
    match dlsAux cs with
    | some r => some (c :: r)
    | none => if c = '|' then some [] else none

/-- Embeds Python `s.rsplit("|", 1)[0]` on the character list: everything
before the last pipe, or the whole list when no pipe occurs. -/
def dropLastSegList (l : List Char) : List Char :=
  (dlsAux l).getD l

/-- String form of `dropLastSegList`: the parent path of a long node name,
exactly `s.rsplit("|", 1)[0]` as used by `get_ancestors`. -/
def dropLastSeg (s : String) : String :=
  String.mk (dropLastSegList s.data)

/-- Model of the host scene-graph API (`maya.cmds`).  Each field is one query
the module `assets.py` performs; the host interprets node identifiers, so the
fields are abstract functions on identifier strings. -/
structure Cmds where
  /-- `cmds.referenceQuery(node, isNodeReferenced=True)` -/
  isNodeReferenced : String → Bool
  /-- `cmds.referenceQuery(node, rfn=True)`: the reference node owning `node` -/
  refNode : String → String
  /-- `cmds.ls(node, l=True)`: the long names matching `node` -/
  lsLong : String → List String
  /-- `cmds.ls(sl=True, objects=True, l=True)`: current selection, long names -/
  lsSelection : List String
  /-- `cmds.ls("|*", type="transform", l=True)`: top-level transforms -/
  lsTopTransforms : List String
  /-- `cmds.file(q=True, sn=True)`: the current scene file path -/
  currentFile : String
  /-- `cmds.objectType(node)` -/
  objectType : String → String
  /-- `cmds.listRelatives(node, children=True, type=typ, f=True)` -/
  listChildren : String → String → List String
  /-- `cmds.listRelatives(node, children=True, shapes=True, ni=True,
  type="nurbsCurve")` for one node -/
  listShapesNurbsNi : String → List String
  /-- `cmds.listRelatives(node, children=True, shapes=True)` for one node -/
  listShapesAll : String → List String
  /-- `cmds.ls(node, dag=True, type=typ, l=True)` -/
  lsDagType : String → String → List String
  /-- `cmds.listRelatives(objects, parent=True, type="transform", f=True)` -/
  parentTransforms : List String → List String

/-- Embeds `has_same_reference` (assets.py lines 13-25). -/
def has_same_reference (c : Cmds) (node1 node2 : String) : Bool :=
  let r1 := c.isNodeReferenced node1
  let r2 := c.isNodeReferenced node2
  if !(r1 || r2) then true
  else if !(r1 && r2) then false
  else c.refNode node1 == c.refNode node2

/-- Embeds `get_descendants_by_type` (assets.py lines 28-35).  The source
compares the *builtin* `type` against `"transform"` (a slip: the parameter is
named `typ`), so the comparison is always unequal and the parent lookup always
runs, for every `typ`. -/
def get_descendants_by_type (c : Cmds) (node typ : String) : List String :=
  let objects := c.lsDagType node typ
  c.parentTransforms objects

/-- The `while parent:` loop of `get_ancestors`, with explicit fuel: append the
current parent, then strip the last path segment.  The loop makes progress on
well-formed long names (which start with a pipe), so fuel `length + 1` is
sufficient there; the theorems below carry that well-formedness. -/
def getAncestorsFuelL : Nat → List Char → List (List Char)
  | 0, _ => []
  | n + 1, p => if p = [] then [] else p :: getAncestorsFuelL n (dropLastSegList p)

/-- Embeds `get_ancestors` (assets.py lines 38-45): the chain from the
immediate parent up to the top-level node, computed by repeated
`rsplit("|", 1)[0]`. -/
def get_ancestors (c : Cmds) (node : String) : List String :=
  match c.lsLong node with
  | [] => []
  | ln :: _ =>
    let p := dropLastSegList ln.data
    (getAncestorsFuelL (p.length + 1) p).map String.mk

/-- Embeds `filter_from_children` (assets.py lines 48-54).  The source applies
`re.match(name_pattern, child)` to the FULL child path; the caller supplies the
compiled pattern as a Boolean matcher. -/
def filter_from_children (c : Cmds) (node : String) (matchFn : String → Bool)
    (typ : String) : List String :=
  (c.listChildren node typ).filter matchFn

/-- The five asset variants, in the order `MayaAsset.__subclasses__()` yields
them (class definition order in assets.py): Character, Prop, Environment,
Generic, Vehicle. -/
inductive AssetCls
  | char
  | prop
  | envr
  | unknown
  | vhcl
deriving DecidableEq

/-- The `asset_type` tag of each variant class. -/
def AssetCls.tag : AssetCls → String
  | .char => "char"
  | .prop => "prop"
  | .envr => "envr"
  | .unknown => "unknown"
  | .vhcl => "vhcl"

/-- A constructed asset object: its class, its `root`, and its mutable
`auxiliary_roots` list (assets.py lines 129-134). -/
structure Asset where
  cls : AssetCls
  root : String
  auxiliary_roots : List String
deriving DecidableEq

/-- Embeds `MayaAsset.add_auxiliary_root` (assets.py lines 143-145):
append `obj` unless it is already present. -/
def add_auxiliary_root (a : Asset) (obj : String) : Asset :=
  if obj ∈ a.auxiliary_roots then a
  else { a with auxiliary_roots := a.auxiliary_roots ++ [obj] }

/-- `cmds.listRelatives(children=True, shapes=True, ni=True,
type="nurbsCurve")` is called WITHOUT a node argument in `PropAsset.validate`
(assets.py lines 245-247), so the host applies it to the current selection:
the children of every selected node, concatenated. -/
def selectionShapesNurbsNi (c : Cmds) : List String :=
  (c.lsSelection.map c.listShapesNurbsNi).flatten

/-- `cmds.listRelatives(children=True, shapes=True)` is called WITHOUT a node
argument in `EnvironmentAsset.validate` (assets.py line 263), so it too
queries the current selection. -/
def selectionShapesAll (c : Cmds) : List String :=
  (c.lsSelection.map c.listShapesAll).flatten

/-- Embeds `PropAsset.name_re = r"(?i)(.*)_glbl\d?$"` under `re.match`:
the lower-cased name ends with `_glbl`, optionally followed by one digit. -/
def propNameMatch (s : String) : Bool :=
  let l := s.data.map lcChar
  closesWith "_glbl".data l ||
    (match l.getLast? with
     | some d => d.isDigit && closesWith "_glbl".data l.dropLast
     | none => false)

/-- Embeds `GenericAsset.name_re = "(?i)(.*_grp|.*root)"` under `re.match`:
some prefix of the name matches, i.e. `_grp` or `root` occurs somewhere in the
lower-cased name. -/
def genericNameMatch (s : String) : Bool :=
  let l := s.data.map lcChar
  hasInfixL "_grp".data l || hasInfixL "root".data l

/-- Embeds `CharacterAsset.validate` (assets.py lines 192-204): the node is a
transform and some transform child simple name matches
`re.match("(?i)geo_grp", ...)`, i.e. starts with `geo_grp` case-insensitively.
Only the geo child is checked by the source. -/
def CharacterAsset_validate (c : Cmds) (node : String) : Bool :=
  if !(c.objectType node == "transform") then false
  else if !((c.listChildren node "transform").any
      (fun child => leadsWithCI "geo_grp".data (simple_node_name child).data)) then
    false
  else true

/-- Embeds `PropAsset.validate` (assets.py lines 241-252).  The shape query
carries no node argument, so it inspects the current selection. -/
def PropAsset_validate (c : Cmds) (node : String) : Bool :=
  if !(c.objectType node == "transform") then false
  else if (selectionShapesNurbsNi c).isEmpty then false
  else propNameMatch (simple_node_name node)

/-- Embeds `EnvironmentAsset.validate` (assets.py lines 259-268).  The shape
query carries no node argument, so it inspects the current selection;
`name_re = "ENV_grp"` is matched case-sensitively at the start of the name. -/
def EnvironmentAsset_validate (c : Cmds) (node : String) : Bool :=
  if !(c.objectType node == "transform") then false
  else if !(selectionShapesAll c).isEmpty then false
  else leadsWith "ENV_grp".data (simple_node_name node).data

/-- Embeds `GenericAsset.validate` (assets.py lines 275-279). -/
def GenericAsset_validate (c : Cmds) (node : String) : Bool :=
  (c.objectType node == "transform") && genericNameMatch (simple_node_name node)

/-- Embeds `VehicleAsset.validate` (assets.py lines 285-287): always False. -/
def VehicleAsset_validate (_c : Cmds) (_node : String) : Bool :=
  false

/-- Dispatch of `validate` over the variant classes. -/
def validateAsset (c : Cmds) : AssetCls → String → Bool
  | .char, node => CharacterAsset_validate c node
  | .prop, node => PropAsset_validate c node
  | .envr, node => EnvironmentAsset_validate c node
  | .unknown, node => GenericAsset_validate c node
  | .vhcl, node => VehicleAsset_validate c node

/-- Embeds `MayaAssetFactory.asset_types` (assets.py lines 82-88): every
subclass of `MayaAsset` whose `asset_type` is truthy (all five tags are
nonempty strings, so all five pass), in definition order. -/
def asset_types : List AssetCls :=
  [.char, .prop, .envr, .unknown, .vhcl]

/-- Embeds `MayaAssetFactory.get_asset_cls_from_path` (assets.py lines
117-126).  The source builds the pattern `f"/{asset_type}/"` but then calls
`re.findall(asset_type_re, asset_type)` - it searches the TAG ITSELF, not the
path (the normpath of the path is computed and then never used).  `continue`
skips the `unknown` tag. -/
def get_asset_cls_from_path (path : String) : Option AssetCls :=
  let _normed := path
  asset_types.find? (fun t =>
    (!(t.tag == "unknown")) &&
      hasInfixL ("/" ++ t.tag ++ "/").data t.tag.data)

/-- Embeds `MayaAssetFactory.get_asset` (assets.py lines 69-80): default the
path to the current scene file, optionally narrow the variant list from the
path, and return the first variant whose `validate` accepts the node. -/
def get_asset (c : Cmds) (obj : String) (pathArg : Option String) : Option Asset :=
  let path := match pathArg with
    | none => c.currentFile
    | some p => p
  let assetTypes := match get_asset_cls_from_path path with
    | some acls => [acls, AssetCls.unknown]
    | none => asset_types
  (assetTypes.find? (fun t => validateAsset c t obj)).map
    (fun t => Asset.mk t obj [])

/-- Embeds `MayaAssetFactory.find_assets` (assets.py lines 58-67) with the
default `include_ref=False` (the only value the assertion admits): classify
every top-level transform and keep the matches. -/
def find_assets (c : Cmds) : List Asset :=
  c.lsTopTransforms.filterMap (fun rt => get_asset c rt none)

/-- The `for anc in ancestors` loop of `get_assets_from_selection`
(assets.py lines 104-107): extend `root` while the ancestor is in the same
reference group as `obj`, stop at the first mismatch. -/
def refRootLoop (c : Cmds) (obj : String) : String → List String → String
  | root, [] => root
  | root, anc :: rest =>
    if has_same_reference c obj anc then refRootLoop c obj anc rest else root

/-- The per-selected-node asset-root resolution of
`get_assets_from_selection` (assets.py lines 95-108).  For an unreferenced
node the source takes `ancestors[-1]`; on an empty ancestor list that raises
IndexError, modelled by `none`. -/
def resolveRoot (c : Cmds) (obj : String) : Option String :=
  let ancestors := get_ancestors c obj
  if c.isNodeReferenced obj then some (refRootLoop c obj obj ancestors)
  else ancestors.getLast?

/-- The `for obj in selected` loop building `roots`: any raised IndexError
aborts the whole call, hence `Option`. -/
def resolveAll (c : Cmds) : List String → Option (List String)
  | [] => some []
  | o :: os =>
    match resolveRoot c o with
    | none => none
    | some r => (resolveAll c os).map (fun rs => r :: rs)

/-- Embeds `MayaAssetFactory.get_assets_from_selection` (assets.py lines
90-115): resolve a root per selected node, then classify each root (the
result of `get_asset` is appended even when it is `None`). -/
def get_assets_from_selection (c : Cmds) : Option (List (Option Asset)) :=
  (resolveAll c c.lsSelection).map (fun roots =>
    roots.map (fun r => get_asset c r none))

/-- Embeds `CharacterAsset.get_geo` via `geo_grp` (assets.py lines 206-207,
219-220): `filter_from_children(root, geo_re)[0]` raises IndexError on an
empty filter result. -/
def charGetGeo (c : Cmds) (a : Asset) : Except String (List String) :=
  match filter_from_children c a.root
      (fun child => leadsWithCI "geo_grp".data child.data) "transform" with
  | [] => Except.error "IndexError: list index out of range"
  | g :: _ => Except.ok (get_descendants_by_type c g "mesh")

/-- Embeds the base `MayaAsset.get_geo` (assets.py lines 147-151): the body
computes the meshes into the local `geos`, but the return statement names the
undefined `geo`, so every call raises NameError instead of returning. -/
def mayaAsset_get_geo (c : Cmds) (a : Asset) : Except String (List String) :=
  let geos := get_descendants_by_type c a.root "mesh"
  let _allGeos := a.auxiliary_roots.foldl
    (fun acc r => acc ++ get_descendants_by_type c r "mesh") geos
  Except.error "NameError: geo is not defined"

/-- Dynamic dispatch of `get_geo`: only `CharacterAsset` overrides it; the
other four variants use the base accessor. -/
def asset_get_geo (c : Cmds) (a : Asset) : Except String (List String) :=
  match a.cls with
  | AssetCls.char => charGetGeo c a
  | _ => mayaAsset_get_geo c a

/- Concrete scenes used to instantiate the theorems below.  Each is one
`Cmds` valuation describing a small host scene. -/

/-- An empty scene: nothing referenced, nothing selected, no children. -/
def cmdsEmpty : Cmds where
  isNodeReferenced := fun _ => false
  refNode := fun _ => ""
  lsLong := fun n => [n]
  lsSelection := []
  lsTopTransforms := []
  currentFile := ""
  objectType := fun _ => ""
  listChildren := fun _ _ => []
  listShapesNurbsNi := fun _ => []
  listShapesAll := fun _ => []
  lsDagType := fun _ _ => []
  parentTransforms := fun _ => []

/-- A scene where the selected node `|A|B|C` and its parent `|A|B` come from
the same reference, while the grandparent `|A` is unreferenced. -/
def sceneRef : Cmds :=
  { cmdsEmpty with
    isNodeReferenced := fun n => n == "|A|B|C" || n == "|A|B"
    refNode := fun _ => "charRN"
    lsSelection := ["|A|B|C"] }

/-- A scene where the selected node `|A|B|C` is unreferenced. -/
def sceneUnref : Cmds :=
  { cmdsEmpty with lsSelection := ["|A|B|C"] }

/-- A scene whose selection holds the unreferenced top-level node `|top`. -/
def sceneTop : Cmds :=
  { cmdsEmpty with lsSelection := ["|top"] }

/-- A scene with a transform `|jj` whose three transform children carry the
prefixed names `jj_geo_grp`, `jj_ctls_grp`, `jj_rig_grp`. -/
def sceneGlobChar : Cmds :=
  { cmdsEmpty with
    objectType := fun _ => "transform"
    listChildren := fun n t =>
      if n == "|jj" && t == "transform" then
        ["|jj|jj_geo_grp", "|jj|jj_ctls_grp", "|jj|jj_rig_grp"]
      else [] }

/-- A scene with a transform `|jj` whose children are named exactly
`geo_grp`, `ctls_grp`, `rig_grp`. -/
def sceneChar : Cmds :=
  { cmdsEmpty with
    objectType := fun _ => "transform"
    listChildren := fun n t =>
      if n == "|jj" && t == "transform" then
        ["|jj|geo_grp", "|jj|ctls_grp", "|jj|rig_grp"]
      else [] }

/-- A scene with a transform `|table_glbl` that owns a nurbs-curve shape
child, while the current selection is the shapeless node `|other`. -/
def sceneProp : Cmds :=
  { cmdsEmpty with
    objectType := fun _ => "transform"
    lsSelection := ["|other"]
    listShapesNurbsNi := fun n =>
      if n == "|table_glbl" then ["|table_glbl|table_glblShape"] else [] }

/-- A scene whose only top-level transform `|xx` matches no variant: it has no
children, and its name fits none of the name patterns. -/
def sceneUnmatched : Cmds :=
  { cmdsEmpty with
    objectType := fun _ => "transform"
    lsTopTransforms := ["|xx"]
    currentFile := "/tmp/scenes/plain.ma" }

/- Helper lemmas. -/

/-- Stripping the final path segment shortens the name when a pipe occurs. -/
theorem dlsAux_length_lt : ∀ {l r : List Char}, dlsAux l = some r → r.length < l.length := by
  intro l
  induction l with
  | nil => intro r h; simp [dlsAux] at h
  | cons c cs ih =>
    intro r h
    unfold dlsAux at h
    cases hcs : dlsAux cs with
    | some r2 =>
      simp only [hcs] at h
      cases h
      simpa using Nat.succ_lt_succ (ih hcs)
    | none =>
      simp only [hcs] at h
      by_cases hc : c = '|'
      · simp [hc] at h
        cases h
        simp
      · simp [hc] at h

/-- For a name that starts with a pipe, the parent path is empty or again
starts with a pipe, and is strictly shorter. -/
theorem head_pipe_step : ∀ {l : List Char}, l.head? = some '|' →
    (dropLastSegList l = [] ∨ (dropLastSegList l).head? = some '|') ∧
      (dropLastSegList l).length < l.length := by
  intro l h
  cases l with
  | nil => simp at h
  | cons c cs =>
    have hc : c = '|' := by simpa using h
    subst hc
    unfold dropLastSegList dlsAux
    cases hcs : dlsAux cs with
    | none => simp
    | some r =>
      have hr := dlsAux_length_lt hcs
      simp only [Option.getD_some]
      exact ⟨Or.inr rfl, by simpa using Nat.succ_lt_succ hr⟩

/-- The ancestor loop on the empty parent yields no ancestors, for any fuel. -/
theorem getAncestorsFuelL_nil (n : Nat) : getAncestorsFuelL n [] = [] := by
  cases n <;> simp [getAncestorsFuelL]

/-- With sufficient fuel, the last entry of the ancestor chain of a
pipe-prefixed parent path is a node whose own parent path is empty, i.e. a
node sitting directly under the scene root. -/
theorem last_ancestor_parent_nil :
    ∀ (n : Nat) (p : List Char), p ≠ [] → p.head? = some '|' → p.length ≤ n →
      ∃ q, (getAncestorsFuelL n p).getLast? = some q ∧ dropLastSegList q = [] := by
  intro n
  induction n with
  | zero =>
    intro p hne _ hlen
    cases p with
    | nil => exact absurd rfl hne
    | cons a l => simp at hlen
  | succ n ih =>
    intro p hne hhd hlen
    rw [getAncestorsFuelL, if_neg hne]
    obtain ⟨hinv, hlt⟩ := head_pipe_step hhd
    cases hinv with
    | inl hz =>
      rw [hz, getAncestorsFuelL_nil]
      exact ⟨p, by simp, hz⟩
    | inr hhd2 =>
      have hne2 : dropLastSegList p ≠ [] := by
        intro hz; rw [hz] at hhd2; simp at hhd2
      have hlen2 : (dropLastSegList p).length ≤ n := by omega
      obtain ⟨q, hq1, hq2⟩ := ih (dropLastSegList p) hne2 hhd2 hlen2
      refine ⟨q, ?_, hq2⟩
      cases hrec : getAncestorsFuelL n (dropLastSegList p) with
      | nil => rw [hrec] at hq1; simp at hq1
      | cons b bs =>
        rw [hrec] at hq1
        rw [List.getLast?_cons_cons]
        exact hq1

/-- The reference-boundary loop of `get_assets_from_selection` computes the
last element of the matching prefix of the ancestor chain, defaulting to the
starting node. -/
theorem refRootLoop_eq_takeWhile (c : Cmds) (obj : String) :
    ∀ (l : List String) (r : String),
      refRootLoop c obj r l =
        (l.takeWhile (fun a => has_same_reference c obj a)).getLastD r := by
  intro l
  induction l with
  | nil => intro r; rfl
  | cons a t ih =>
    intro r
    by_cases h : has_same_reference c obj a = true
    · simp only [refRootLoop, h, if_true, List.takeWhile_cons, List.getLastD_cons]
      exact ih a
    · have hb : has_same_reference c obj a = false := by
        cases hx : has_same_reference c obj a
        · rfl
        · exact absurd hx h
      simp [refRootLoop, hb, List.takeWhile_cons]

/-- The path-based narrowing never fires: the source searches the tag pattern
inside the tag itself, so every path yields no class. -/
theorem asset_cls_from_path_none (p : String) : get_asset_cls_from_path p = none := rfl

/-- A constructed asset carries the classified node as its `root`. -/
theorem get_asset_root_of_some {c : Cmds} {o : String} {p : Option String} {a : Asset}
    (h : get_asset c o p = some a) : a.root = o := by
  have h2 : (asset_types.find? (fun t => validateAsset c t o)).map
      (fun t => Asset.mk t o []) = some a := h
  cases hf : asset_types.find? (fun t => validateAsset c t o) with
  | none => rw [hf] at h2; simp at h2
  | some t =>
    rw [hf] at h2
    injection h2 with h3
    rw [← h3]

/-- If any selected node fails root resolution, the whole roots loop fails. -/
theorem resolveAll_eq_none {c : Cmds} {obj : String} :
    ∀ {l : List String}, obj ∈ l → resolveRoot c obj = none → resolveAll c l = none := by
  intro l
  induction l with
  | nil => intro hmem; simp at hmem
  | cons a t ih =>
    intro hmem hnone
    rw [resolveAll]
    rcases List.mem_cons.mp hmem with h | h
    · subst h; rw [hnone]
    · cases hr : resolveRoot c a with
      | none => rfl
      | some r => rw [ih h hnone]; rfl

/- Claim theorems. -/

/-- C6: `has_same_reference` returns True exactly when both nodes are
unreferenced, or both are referenced and owned by the same reference node
(the same referenced-file group); in particular it is False whenever exactly
one of the two nodes is reference-backed. -/
theorem has_same_reference_iff_same_group (c : Cmds) (n1 n2 : String) :
    has_same_reference c n1 n2 = true ↔
      ((c.isNodeReferenced n1 = false ∧ c.isNodeReferenced n2 = false) ∨
       (c.isNodeReferenced n1 = true ∧ c.isNodeReferenced n2 = true ∧
         c.refNode n1 = c.refNode n2)) := by
  unfold has_same_reference
  cases h1 : c.isNodeReferenced n1 <;> cases h2 : c.isNodeReferenced n2 <;>
    simp [h1, h2]

/-- C1: for a reference-backed selected node, the root resolution inside
`get_assets_from_selection` walks the ancestor chain from the immediate parent
upward, keeping ancestors while `has_same_reference` holds against the
original node, and resolves to the last matching ancestor - or the node
itself when the immediate parent already mismatches.  For a singleton
selection the resolved root is exactly what `get_assets_from_selection`
classifies. -/
theorem ref_root_resolution_takeWhile (c : Cmds) (obj : String)
    (href : c.isNodeReferenced obj = true) :
    resolveRoot c obj =
        some (((get_ancestors c obj).takeWhile
          (fun a => has_same_reference c obj a)).getLastD obj) ∧
      (c.lsSelection = [obj] →
        get_assets_from_selection c =
          some [get_asset c (((get_ancestors c obj).takeWhile
            (fun a => has_same_reference c obj a)).getLastD obj) none]) := by
  have h1 : resolveRoot c obj =
      some (((get_ancestors c obj).takeWhile
        (fun a => has_same_reference c obj a)).getLastD obj) := by
    unfold resolveRoot
    simp [href, refRootLoop_eq_takeWhile]
  exact ⟨h1, fun hs => by simp [get_assets_from_selection, hs, resolveAll, h1]⟩

/-- Witness for C1 on the concrete scene `sceneRef`: the selected node
`|A|B|C` and its parent share a reference, the grandparent does not, so the
resolved root is `|A|B`. -/
theorem ref_root_resolution_takeWhile_app :
    resolveRoot sceneRef "|A|B|C" =
        some (((get_ancestors sceneRef "|A|B|C").takeWhile
          (fun a => has_same_reference sceneRef "|A|B|C" a)).getLastD "|A|B|C") ∧
      get_assets_from_selection sceneRef =
        some [get_asset sceneRef (((get_ancestors sceneRef "|A|B|C").takeWhile
          (fun a => has_same_reference sceneRef "|A|B|C" a)).getLastD "|A|B|C") none] ∧
      ((get_ancestors sceneRef "|A|B|C").takeWhile
          (fun a => has_same_reference sceneRef "|A|B|C" a)).getLastD "|A|B|C" = "|A|B" := by
  have h := ref_root_resolution_takeWhile sceneRef "|A|B|C" (by decide)
  exact ⟨h.1, h.2 (by decide), by decide⟩

/-- C2: for an unreferenced selected node with a well-formed long name and a
nonempty ancestor chain, the root resolution inside
`get_assets_from_selection` picks `ancestors[-1]`, the outermost entry of the
ancestor chain, and that entry sits directly under the scene root (its own
parent path is empty). -/
theorem unref_root_resolution_topmost (c : Cmds) (obj ln : String)
    (hls : c.lsLong obj = [ln])
    (hhd : ln.data.head? = some '|')
    (href : c.isNodeReferenced obj = false)
    (hne : get_ancestors c obj ≠ []) :
    ∃ r, resolveRoot c obj = some r ∧
      (get_ancestors c obj).getLast? = some r ∧
      r ∈ get_ancestors c obj ∧
      dropLastSeg r = "" ∧
      (c.lsSelection = [obj] →
        get_assets_from_selection c = some [get_asset c r none]) := by
  have hanc : get_ancestors c obj =
      (getAncestorsFuelL ((dropLastSegList ln.data).length + 1)
        (dropLastSegList ln.data)).map String.mk := by
    simp [get_ancestors, hls]
  obtain ⟨hinv, _⟩ := head_pipe_step hhd
  cases hinv with
  | inl hz =>
    exfalso
    apply hne
    rw [hanc, hz, getAncestorsFuelL_nil]
    rfl
  | inr hhd2 =>
    have hpne : dropLastSegList ln.data ≠ [] := by
      intro hz; rw [hz] at hhd2; simp at hhd2
    obtain ⟨q, hq1, hq2⟩ := last_ancestor_parent_nil
      ((dropLastSegList ln.data).length + 1) (dropLastSegList ln.data)
      hpne hhd2 (by omega)
    have hlast : (get_ancestors c obj).getLast? = some (String.mk q) := by
      rw [hanc, List.getLast?_map, hq1]
      rfl
    have h1 : resolveRoot c obj = some (String.mk q) := by
      unfold resolveRoot
      simp [href, hlast]
    refine ⟨String.mk q, h1, hlast, List.mem_of_getLast?_eq_some hlast, ?_, ?_⟩
    · show String.mk (dropLastSegList (String.mk q).data) = ""
      rw [show (String.mk q).data = q from rfl, hq2]
    · intro hs
      simp [get_assets_from_selection, hs, resolveAll, h1]

/-- Witness for C2 on the concrete scene `sceneUnref`: the unreferenced
selected node `|A|B|C` resolves to the outermost ancestor `|A`. -/
theorem unref_root_resolution_topmost_app :
    (∃ r, resolveRoot sceneUnref "|A|B|C" = some r ∧
      (get_ancestors sceneUnref "|A|B|C").getLast? = some r ∧
      r ∈ get_ancestors sceneUnref "|A|B|C" ∧
      dropLastSeg r = "" ∧
      (sceneUnref.lsSelection = ["|A|B|C"] →
        get_assets_from_selection sceneUnref = some [get_asset sceneUnref r none])) ∧
      (get_ancestors sceneUnref "|A|B|C").getLast? = some "|A" := by
  refine ⟨unref_root_resolution_topmost sceneUnref "|A|B|C" "|A|B|C"
    (by decide) (by decide) (by decide) (by decide), by decide⟩

/-- C10: a selection containing an unreferenced node whose ancestor chain is
empty (a top-level node) makes `get_assets_from_selection` fail with the
IndexError of `ancestors[-1]` (modelled as `none`) instead of returning the
node itself as a root. -/
theorem toplevel_unref_selection_error (c : Cmds) (obj : String)
    (hsel : obj ∈ c.lsSelection)
    (href : c.isNodeReferenced obj = false)
    (hanc : get_ancestors c obj = []) :
    get_assets_from_selection c = none := by
  have h1 : resolveRoot c obj = none := by
    unfold resolveRoot
    simp [href, hanc]
  simp [get_assets_from_selection, resolveAll_eq_none hsel h1]

/-- Witness for C10 on the concrete scene `sceneTop`: selecting the top-level
unreferenced node `|top` makes the whole call fail. -/
theorem toplevel_unref_selection_error_app :
    get_assets_from_selection sceneTop = none :=
  toplevel_unref_selection_error sceneTop "|top" (by decide) (by decide) (by decide)

/-- C3 counterexample: a transform `|jj` whose child transforms have the
glob-matching names `jj_geo_grp`, `jj_ctls_grp`, `jj_rig_grp` (each ends in
the `_geo_grp` / `_ctls_grp` / `_rig_grp` suffix) is REJECTED by
`CharacterAsset.validate`, because the source matches `(?i)geo_grp` anchored
at the start of the simple name, and `get_asset` classifies the node as
nothing at all. -/
theorem character_glob_children_refuted :
    (sceneGlobChar.listChildren "|jj" "transform").map simple_node_name =
        ["jj_geo_grp", "jj_ctls_grp", "jj_rig_grp"] ∧
      closesWith "_geo_grp".data "jj_geo_grp".data = true ∧
      closesWith "_ctls_grp".data "jj_ctls_grp".data = true ∧
      closesWith "_rig_grp".data "jj_rig_grp".data = true ∧
      sceneGlobChar.objectType "|jj" = "transform" ∧
      CharacterAsset_validate sceneGlobChar "|jj" = false ∧
      get_asset sceneGlobChar "|jj" (some "/tmp/scenes/plain.ma") = none := by
  decide

/-- C3 (amended): a transform node with a child transform whose simple name
starts with `geo_grp` (case-insensitively) is accepted by
`CharacterAsset.validate`, and `get_asset` - trying Character first - yields
a Character asset rooted at the node. -/
theorem character_geo_child_classified (c : Cmds) (node : String) (p : Option String)
    (ht : c.objectType node = "transform")
    (hch : (c.listChildren node "transform").any
      (fun child => leadsWithCI "geo_grp".data (simple_node_name child).data) = true) :
    CharacterAsset_validate c node = true ∧
      get_asset c node p = some (Asset.mk AssetCls.char node []) := by
  have hv : CharacterAsset_validate c node = true := by
    simp only [CharacterAsset_validate, ht, hch]
    simp
  refine ⟨hv, ?_⟩
  show (asset_types.find? (fun t => validateAsset c t node)).map
      (fun t => Asset.mk t node []) = some (Asset.mk AssetCls.char node [])
  rw [show asset_types = AssetCls.char :: [AssetCls.prop, AssetCls.envr,
    AssetCls.unknown, AssetCls.vhcl] from rfl]
  rw [List.find?_cons_of_pos _ (by simpa [validateAsset] using hv)]
  rfl

/-- Witness for the amended C3 on the concrete scene `sceneChar`, whose
character children are named exactly `geo_grp`, `ctls_grp`, `rig_grp`. -/
theorem character_geo_child_classified_app :
    CharacterAsset_validate sceneChar "|jj" = true ∧
      get_asset sceneChar "|jj" none = some (Asset.mk AssetCls.char "|jj" []) :=
  character_geo_child_classified sceneChar "|jj" none (by decide) (by decide)

/-- C4 evaluation at a failing input: the transform `|table_glbl` owns a
nurbs-curve shape child and its name matches `(.*)_glbl`, yet
`PropAsset.validate` rejects it and `get_asset` yields nothing, because the
shape query in the source names no node and therefore inspects the current
selection (here the shapeless `|other`) instead of the candidate node. -/
theorem prop_validate_queries_selection :
    sceneProp.objectType "|table_glbl" = "transform" ∧
      sceneProp.listShapesNurbsNi "|table_glbl" = ["|table_glbl|table_glblShape"] ∧
      propNameMatch (simple_node_name "|table_glbl") = true ∧
      CharacterAsset_validate sceneProp "|table_glbl" = false ∧
      PropAsset_validate sceneProp "|table_glbl" = false ∧
      get_asset sceneProp "|table_glbl"
        (some "/shows/x/assets/prop/table/table_RIG.ma") = none := by
  decide

/-- C5 evaluation at failing inputs: `get_asset_cls_from_path` returns no
class even for paths whose folder segments carry the `char`, `prop`, `envr`
or `vhcl` tag, because the source searches the tag pattern inside the tag
string itself rather than inside the path. -/
theorem path_tag_inference_returns_none :
    get_asset_cls_from_path "/shows/x/assets/char/jj/jjDefault_RIG.ma" = none ∧
      get_asset_cls_from_path "/shows/x/assets/prop/table/table_RIG.ma" = none ∧
      get_asset_cls_from_path "/shows/x/assets/envr/kitchen/kitchen.ma" = none ∧
      get_asset_cls_from_path "/shows/x/assets/vhcl/bus/bus.ma" = none := by
  decide

/-- C7: when every registered variant rejects a node, `get_asset` returns
`none` (no error), and `find_assets` simply omits the node: no asset in its
result has that node as root. -/
theorem unmatched_node_no_asset (c : Cmds) (obj : String) (p : Option String)
    (h : ∀ t ∈ asset_types, validateAsset c t obj = false) :
    get_asset c obj p = none ∧ ∀ a ∈ find_assets c, a.root ≠ obj := by
  have key : ∀ p2 : Option String, get_asset c obj p2 = none := by
    intro p2
    show (asset_types.find? (fun t => validateAsset c t obj)).map
      (fun t => Asset.mk t obj []) = none
    rw [List.find?_eq_none.mpr (fun x hx => by simp [h x hx])]
    rfl
  refine ⟨key p, ?_⟩
  intro a ha heq
  rw [show find_assets c = c.lsTopTransforms.filterMap
    (fun rt => get_asset c rt none) from rfl] at ha
  rw [List.mem_filterMap] at ha
  obtain ⟨rt, _hrt, hget⟩ := ha
  have hroot : a.root = rt := get_asset_root_of_some hget
  rw [hroot.symm.trans heq] at hget
  rw [key none] at hget
  exact Option.noConfusion hget

/-- Witness for C7 on the concrete scene `sceneUnmatched`: the top-level
transform `|xx` fails every variant predicate, `get_asset` yields `none`, and
`find_assets` omits it. -/
theorem unmatched_node_no_asset_app :
    (∀ t ∈ asset_types, validateAsset sceneUnmatched t "|xx" = false) ∧
      get_asset sceneUnmatched "|xx" none = none ∧
      ∀ a ∈ find_assets sceneUnmatched, a.root ≠ "|xx" := by
  have h : ∀ t ∈ asset_types, validateAsset sceneUnmatched t "|xx" = false := by
    decide
  exact ⟨h, (unmatched_node_no_asset sceneUnmatched "|xx" none h).1,
    (unmatched_node_no_asset sceneUnmatched "|xx" none h).2⟩

/-- C8: `add_auxiliary_root` never touches `root` (nor the class tag), adding
an already-present node changes nothing, the operation is idempotent, and it
preserves freedom from duplicates in `auxiliary_roots`. -/
theorem add_auxiliary_root_frame (a : Asset) (obj : String) :
    (add_auxiliary_root a obj).root = a.root ∧
      (add_auxiliary_root a obj).cls = a.cls ∧
      add_auxiliary_root (add_auxiliary_root a obj) obj = add_auxiliary_root a obj ∧
      (obj ∈ a.auxiliary_roots → add_auxiliary_root a obj = a) ∧
      (a.auxiliary_roots.Nodup → (add_auxiliary_root a obj).auxiliary_roots.Nodup) := by
  by_cases h : obj ∈ a.auxiliary_roots
  · simp [add_auxiliary_root, h]
  · have hmem : obj ∈ a.auxiliary_roots ++ [obj] := by simp
    refine ⟨by simp [add_auxiliary_root, h], by simp [add_auxiliary_root, h], ?_, ?_, ?_⟩
    · simp [add_auxiliary_root, h, hmem]
    · intro hc; exact absurd hc h
    · intro hn
      simp only [add_auxiliary_root, h, if_false, ite_false, if_neg]
      simp [List.nodup_append, hn, h]

/-- Witness for C8 on a concrete asset: re-adding the present `|aux1` changes
nothing, and adding the fresh `|aux2` keeps the root and leaves the auxiliary
list duplicate-free. -/
theorem add_auxiliary_root_frame_app :
    add_auxiliary_root (Asset.mk AssetCls.char "|jj" ["|aux1"]) "|aux1" =
        Asset.mk AssetCls.char "|jj" ["|aux1"] ∧
      (add_auxiliary_root (Asset.mk AssetCls.char "|jj" ["|aux1"]) "|aux2").root = "|jj" ∧
      (add_auxiliary_root (Asset.mk AssetCls.char "|jj" ["|aux1"])
        "|aux2").auxiliary_roots.Nodup :=
  ⟨(add_auxiliary_root_frame (Asset.mk AssetCls.char "|jj" ["|aux1"]) "|aux1").2.2.2.1
      (by decide),
   (add_auxiliary_root_frame (Asset.mk AssetCls.char "|jj" ["|aux1"]) "|aux2").1,
   (add_auxiliary_root_frame (Asset.mk AssetCls.char "|jj" ["|aux1"]) "|aux2").2.2.2.2
      (by decide)⟩

/-- C9: every asset whose class uses the base `get_geo` accessor (Prop,
Environment, Generic, Vehicle) gets a NameError on each call - the body binds
`geos` but returns the undefined name `geo` - so no geometry list is ever
returned. -/
theorem base_get_geo_always_errors (c : Cmds) (a : Asset)
    (h : a.cls = AssetCls.prop ∨ a.cls = AssetCls.envr ∨
      a.cls = AssetCls.unknown ∨ a.cls = AssetCls.vhcl) :
    asset_get_geo c a = Except.error "NameError: geo is not defined" := by
  obtain ⟨cls, rt, aux⟩ := a
  simp only at h
  rcases h with h | h | h | h <;> subst h <;> rfl

/-- Witness for C9 on the empty scene and a Prop asset. -/
theorem base_get_geo_always_errors_app :
    asset_get_geo cmdsEmpty (Asset.mk AssetCls.prop "|p_glbl" []) =
      Except.error "NameError: geo is not defined" :=
  base_get_geo_always_errors cmdsEmpty (Asset.mk AssetCls.prop "|p_glbl" []) (Or.inl rfl)
